import Mathlib

/-!
# Verification of the `limit_order_book` order registry

Shallow embedding of the C++ sources (`include/order.hpp`,
`include/order_manager.hpp`, `src/order_manager.cpp`).  The program stores
active limit orders in a hash map (`std::unordered_map<uint64_t, Order>`)
and offers add / cancel / lookup / CSV-load / snapshot-print operations.
It performs no price-time matching and emits no trade events.

Modelling choices:
* `uint64_t` ids are modelled as `Nat` (all operations compare ids for
  equality only, so no wrap-around is observable);
* `double price` is modelled as `Rat`; every price occurring in the
  properties below is exactly representable as a double, and the source
  only compares prices (`<`, `>`) and prints them, so the rational model
  agrees with IEEE doubles on all inputs considered;
* `uint32_t quantity` and `side` are modelled as `Nat`; where the source
  narrows a wider parse result to `uint32_t` we take the value `% 2^32`;
* the `std::unordered_map` is modelled as an association list of orders
  with pairwise-distinct ids (the map's key-uniqueness invariant); the
  list order plays the role of insertion (arrival) order.  Hash-map
  iteration order is unspecified in C++, so anything that iterates the map
  is modelled relationally over arbitrary permutations of this list;
* the mutable snapshot cache (`order_ptrs_`, `snapshot_dirty_`) is a
  memoization of `orders_` rebuilt before each print
  (`rebuild_snapshot_cache`); it is not part of the observable state and
  is not modelled as a separate field;
* the `uint64_t` statistics counters are modelled as `Nat`; wrap-around
  after `2^64` operations is not modelled.
-/

namespace LimitOrderBook

/-- `struct Order` from `include/order.hpp`: `uint64_t id`, `double price`,
`uint32_t quantity`, `uint32_t side` (0 = buy, 1 = sell). -/
structure Order where
  id : Nat
  price : Rat
  quantity : Nat
  side : Nat
deriving DecidableEq, Repr

/-- `Order::is_buy()`: `side == 0`. -/
def Order.is_buy (o : Order) : Bool := o.side == 0

/-- `Order::is_sell()`: `side == 1`. -/
def Order.is_sell (o : Order) : Bool := o.side == 1

/-- The observable state of `class OrderManager`
(`include/order_manager.hpp`): the order map `orders_` plus the two
statistics counters.  `orders` is kept in insertion order; the hash map's
key uniqueness means the ids are pairwise distinct in every reachable
state. -/
structure OrderManager where
  orders : List Order
  total_orders_added : Nat
  total_orders_cancelled : Nat
deriving DecidableEq, Repr

/-- A freshly constructed `OrderManager` (all members default-initialised:
empty map, zero counters). -/
def mgr0 : OrderManager := ⟨[], 0, 0⟩

/-- `OrderManager::get_order` / the map lookup `orders_.find(id)`:
the stored order with the given id, if any. -/
def findOrder (orders : List Order) (i : Nat) : Option Order :=
  orders.find? (fun x => x.id == i)

/-- `OrderManager::add_order` (`src/order_manager.cpp` lines 6–16):
`orders_.try_emplace(order.id, order)` inserts iff the id is not already a
key; on insertion the added counter is incremented and `true` returned,
otherwise `false` is returned and nothing changes.  No validation of
price or quantity is performed. -/
def add_order (st : OrderManager) (o : Order) : Bool × OrderManager :=
  match findOrder st.orders o.id with
  | some _ => (false, st)
  | none =>
      (true, { st with
                orders := st.orders ++ [o],
                total_orders_added := st.total_orders_added + 1 })

/-- `OrderManager::cancel_order` (`src/order_manager.cpp` lines 18–27):
look the id up; if present erase that entry, increment the cancelled
counter and return `true`; otherwise return `false` and change nothing. -/
def cancel_order (st : OrderManager) (i : Nat) : Bool × OrderManager :=
  match findOrder st.orders i with
  | some _ =>
      (true, { st with
                orders := st.orders.eraseP (fun x => x.id == i),
                total_orders_cancelled := st.total_orders_cancelled + 1 })
  | none => (false, st)

/-- `OrderManager::clear` (`src/order_manager.cpp` lines 129–135): empties
the map and resets both counters. -/
def clearAll (_st : OrderManager) : OrderManager := mgr0

/-- `OrderManager::size()`: number of active orders. -/
def sizeOf (st : OrderManager) : Nat := st.orders.length

/-! ## Fill events

The redesigned specification has submit emit `Fill` events.  The source's
`add_order` performs no matching whatsoever: it only inserts into the hash
map, so no fill event is ever produced.  We give the event type and record
that every submission emits the empty list of fills. -/

/-- A fill event as described by the specification: resting order id,
incoming order id, matched price, matched quantity. -/
structure Fill where
  restingId : Nat
  incomingId : Nat
  price : Rat
  quantity : Nat
deriving DecidableEq, Repr

/-- The fill events emitted by one submission.  `OrderManager::add_order`
performs no matching and produces no events of any kind, so this list is
empty for every state and every incoming order. -/
def emittedFills (_st : OrderManager) (_o : Order) : List Fill := []

/-- Run a sequence of submissions from a given state, collecting the
emitted fill events (each submission contributes `emittedFills`). -/
def runSubmits : List Order → OrderManager → List Fill × OrderManager
  | [], st => ([], st)
  | o :: os, st =>
      let fs := emittedFills st o
      let st' := (add_order st o).2
      let r := runSubmits os st'
      (fs ++ r.1, r.2)

/-- Sum of the quantities of all orders resting in the book. -/
def sumResting (st : OrderManager) : Nat :=
  (st.orders.map Order.quantity).sum

/-- Sum of the quantities reported by a list of fill events. -/
def sumFillQty (fs : List Fill) : Nat :=
  (fs.map Fill.quantity).sum

/-! ## CSV parsing (`parse_csv_line`, `load_from_csv`)

`parse_csv_line` (`src/order_manager.cpp` lines 150–180) tokenises the
line with `std::getline(iss, token, ',')` and converts the first four
tokens with `std::stoull` / `std::stod` / `std::stoul`, catching any
exception and returning null.  The C library conversions skip leading
whitespace, accept an optional sign, convert the longest numeric prefix
and ignore trailing characters; they fail (throw) when no digits are
found or, for the integer conversions, when the digit string exceeds the
type's range (`unsigned long`/`unsigned long long` are both 64-bit
here).  `std::stod` additionally accepts a decimal point; hexadecimal,
infinity/NaN and exponent forms are not modelled (none occur in the
inputs considered). -/

/-- Numeric value of a list of decimal digit characters. -/
def digitsVal (cs : List Char) : Nat :=
  cs.foldl (fun a c => a * 10 + (c.toNat - 48)) 0

/-- Strip leading whitespace, then split an optional single sign
character from the rest. -/
def splitSign (cs : List Char) : Bool × List Char :=
  match cs.dropWhile (fun c => c == ' ' || c == '\t' || c == '\n') with
  | '-' :: rest => (true, rest)
  | '+' :: rest => (false, rest)
  | rest => (false, rest)

/-- `std::stoull` on a token (64-bit): longest digit prefix after
whitespace and optional sign; `none` when there is no digit or the digit
string's value exceeds `2^64 - 1` (out of range); a minus sign negates
modulo `2^64`. -/
def stoullM (s : String) : Option Nat :=
  let p := splitSign s.toList
  let digits := p.2.takeWhile Char.isDigit
  if digits.isEmpty then none
  else
    let v := digitsVal digits
    if v ≥ 2 ^ 64 then none
    else some (if p.1 then (2 ^ 64 - v) % 2 ^ 64 else v)

/-- `std::stoul` on a token: `unsigned long` is also 64-bit on this
platform, so the semantics coincide with `stoullM`. -/
def stoulM (s : String) : Option Nat := stoullM s

/-- `std::stod` on a token, restricted to plain decimal notation:
whitespace, optional sign, digits with an optional decimal point (at
least one digit overall required). -/
def stodM (s : String) : Option Rat :=
  let p := splitSign s.toList
  let intDigits := p.2.takeWhile Char.isDigit
  let rest := p.2.dropWhile Char.isDigit
  let fracDigits :=
    match rest with
    | '.' :: r => r.takeWhile Char.isDigit
    | _ => []
  if intDigits.isEmpty && fracDigits.isEmpty then none
  else
    let mag : Rat :=
      mkRat (digitsVal intDigits * 10 ^ fracDigits.length +
              digitsVal fracDigits)
        (10 ^ fracDigits.length)
    some (if p.1 then -mag else mag)

/-- The tokens produced by repeated `std::getline(iss, token, ',')` on a
character stream: comma-separated fields, except that a trailing empty
field after a final comma is never produced (the stream is then at
end-of-file, so the next `getline` fails) and an empty stream yields no
token at all (the first `getline` fails). -/
def csvTokensAux : List Char → List (List Char)
  | [] => []
  | c :: cs =>
      if c == ',' then [] :: csvTokensAux cs
      else
        match csvTokensAux cs with
        | [] => [[c]]
        | t :: ts => (c :: t) :: ts

/-- `csvTokensAux` on the characters of a line. -/
def csvTokens (s : String) : List String :=
  (csvTokensAux s.toList).map (fun cs => ⟨cs⟩)

/-- `OrderManager::parse_csv_line` (`src/order_manager.cpp` lines
150–180): read four comma-separated tokens (missing tokens fail; extra
tokens are never read), convert them as `stoull`/`stod`/`stoul`
(any conversion failure is caught and yields null), narrow quantity and
side to `uint32_t`, and reject a side value greater than 1. -/
def parse_csv_line (line : String) : Option Order :=
  match csvTokens line with
  | t0 :: t1 :: t2 :: t3 :: _ =>
      match stoullM t0, stodM t1, stoulM t2, stoulM t3 with
      | some i, some pr, some q, some sd =>
          let quantity := q % 2 ^ 32
          let side := sd % 2 ^ 32
          if side > 1 then none else some ⟨i, pr, quantity, side⟩
      | _, _, _, _ => none
  | _ => none

/-- Does the line contain `pat` as a substring (`line.find(pat) !=
std::string::npos`)? -/
def containsSub (s pat : String) : Bool :=
  s.toList.tails.any (fun t => pat.toList.isPrefixOf t)

/-- The header heuristic of `load_from_csv` (`src/order_manager.cpp` line
96): the first line is skipped iff it contains `"id"` or `"ID"` as a
substring. -/
def hasIdSub (line : String) : Bool :=
  containsSub line "id" || containsSub line "ID"

/-- Process one CSV line (the body shared by both branches of
`load_from_csv`): parse it; on success submit via `add_order`; the
returned count is 1 exactly when the submission succeeded. -/
def processLine (st : OrderManager) (line : String) : Nat × OrderManager :=
  match parse_csv_line line with
  | some o =>
      let r := add_order st o
      (if r.1 then 1 else 0, r.2)
  | none => (0, st)

/-- The `while (std::getline(file, line))` loop of `load_from_csv`
(`src/order_manager.cpp` lines 107–114): empty lines are skipped, every
other line is processed, and the per-line successes are accumulated. -/
def loadLines : List String → OrderManager → Nat × OrderManager
  | [], st => (0, st)
  | l :: ls, st =>
      if l = "" then loadLines ls st
      else
        let p := processLine st l
        let r := loadLines ls p.2
        (p.1 + r.1, r.2)

/-- `OrderManager::load_from_csv` (`src/order_manager.cpp` lines 85–117)
on the list of lines of the file: the first `getline` reads the first
line (or leaves the string empty when the file is empty); if it contains
`"id"`/`"ID"` it is skipped as a header, otherwise it is processed like
any record; the remaining lines are processed by `loadLines`.  Returns
the count of successful submissions together with the final state. -/
def load_from_csv (lines : List String) (st : OrderManager) :
    Nat × OrderManager :=
  let first := lines.headD ""
  let rest := lines.tail
  if hasIdSub first then loadLines rest st
  else
    let p := processLine st first
    let r := loadLines rest p.2
    (p.1 + r.1, r.2)

/-! ## Snapshot printing (`print_snapshot`)

`print_snapshot` (`src/order_manager.cpp` lines 34–75) rebuilds
`order_ptrs_` by iterating the `std::unordered_map` (iteration order
unspecified), copies it and sorts the copy with `std::sort` (not stable)
under the comparator below, then prints one fixed-width row per order.
Because neither the hash-map iteration order nor `std::sort`'s
arrangement of equivalent elements is specified, the printed order list
is modelled relationally: any permutation of the active orders that is
sorted with respect to the comparator is a possible output. -/

/-- The sorting lambda of `print_snapshot` (`src/order_manager.cpp` lines
55–65): buy orders strictly precede sell orders; among buys, higher price
first; among sells, lower price first.  Equal-price orders of one side
compare as equivalent. -/
def cmpSnap (a b : Order) : Bool :=
  if a.is_buy != b.is_buy then a.is_buy
  else if a.is_buy then decide (a.price > b.price)
  else decide (a.price < b.price)

/-- The possible order lists printed by `print_snapshot` for a given
state: a permutation of the active orders (hash-map iteration order is
unspecified) arranged by `std::sort` under `cmpSnap`, i.e. no element
strictly precedes an earlier one. -/
def validSnapshotOrders (st : OrderManager) (out : List Order) : Prop :=
  st.orders.Perm out ∧ out.Pairwise (fun a b => cmpSnap b a = false)

/-- Right-justified padding to a field width, as `std::setw(w)` with the
default fill: shorter strings are padded with spaces on the left, longer
strings are not truncated. -/
def padTo (w : Nat) (s : String) : String :=
  ⟨List.replicate (w - s.length) ' '⟩ ++ s

/-- `printf`-style rendering of a non-negative rational with exactly two
decimal places (`std::fixed << std::setprecision(2)`), rounding to the
nearest hundredth (ties upward; the tie case is not exercised by any
double that is an exact multiple of a hundredth). -/
def fmt2Nonneg (q : Rat) : String :=
  let cents := (200 * q.num.toNat + q.den) / (2 * q.den)
  toString (cents / 100) ++ "." ++
    (if cents % 100 < 10 then "0" else "") ++ toString (cents % 100)

/-- Two-decimal rendering of an arbitrary rational price. -/
def fmt2 (q : Rat) : String :=
  if q < 0 then "-" ++ fmt2Nonneg (-q) else fmt2Nonneg q

/-- One data row of the snapshot (`src/order_manager.cpp` lines 67–72):
id in width 12, price with two decimals in width 12, quantity in width
12, and the side label `BUY`/`SELL` in width 8, all right-justified. -/
def renderRow (o : Order) : String :=
  padTo 12 (toString o.id) ++ padTo 12 (fmt2 o.price) ++
    padTo 12 (toString o.quantity) ++
    padTo 8 (if o.is_buy then "BUY" else "SELL")

/-- The required relative arrangement of two snapshot rows per the
specification's priority order (ignoring its arrival tie-break): buys
before sells, buys by descending price, sells by ascending price. -/
def priorityOrdered (a b : Order) : Prop :=
  (a.is_buy = true ∧ b.is_buy = false) ∨
  (a.is_buy = true ∧ b.is_buy = true ∧ b.price ≤ a.price) ∨
  (a.is_buy = false ∧ b.is_buy = false ∧ a.price ≤ b.price)

/-! ## Operation sequences -/

/-- The public mutating operations of `OrderManager` considered by the
counter invariant: `add_order`, `cancel_order`, `clear`. -/
inductive BookOp where
  | addOp (o : Order)
  | cancelOp (i : Nat)
  | clearOp
deriving DecidableEq, Repr

/-- Apply one operation to the state (discarding the returned status). -/
def applyOp (st : OrderManager) : BookOp → OrderManager
  | .addOp o => (add_order st o).2
  | .cancelOp i => (cancel_order st i).2
  | .clearOp => clearAll st

/-- Run a sequence of operations from a freshly constructed manager. -/
def runOps (ops : List BookOp) : OrderManager :=
  ops.foldl applyOp mgr0

/-! ## Helper lemmas -/

theorem findOrder_append (l₁ l₂ : List Order) (i : Nat) :
    findOrder (l₁ ++ l₂) i = (findOrder l₁ i).or (findOrder l₂ i) :=
  List.find?_append

theorem findOrder_eq_none_iff {l : List Order} {i : Nat} :
    findOrder l i = none ↔ ∀ x ∈ l, x.id ≠ i := by
  simp [findOrder]

theorem findOrder_mem {l : List Order} {i : Nat} {o : Order}
    (h : findOrder l i = some o) : o ∈ l := by
  have h2 : List.find? (fun x => x.id == i) l = some o := h
  exact List.mem_of_find?_eq_some h2

theorem findOrder_id {l : List Order} {i : Nat} {o : Order}
    (h : findOrder l i = some o) : (o.id == i) = true := by
  have h2 : List.find? (fun x => x.id == i) l = some o := h
  simpa using List.find?_some h2

/-- The hash map's key-uniqueness, transported to the model: erasing the
entry found for a key leaves no entry with that key. -/
theorem findOrder_eraseP_self {l : List Order} {i : Nat} {o : Order}
    (hnodup : (l.map Order.id).Nodup) (hfind : findOrder l i = some o) :
    findOrder (l.eraseP (fun x => x.id == i)) i = none := by
  have hmem : o ∈ l := findOrder_mem hfind
  have hpo : (o.id == i) = true := findOrder_id hfind
  obtain ⟨a, l₁, l₂, h₁, h₂, h₃, h₄⟩ := List.exists_of_eraseP (p := fun x => x.id == i) hmem hpo
  have hai : a.id = i := by simpa using h₂
  rw [h₄, findOrder_eq_none_iff]
  intro x hx
  rcases List.mem_append.1 hx with hx₁ | hx₂
  · have := h₁ x hx₁
    simpa using this
  · have hnd : ((l₁ ++ a :: l₂).map Order.id).Nodup := h₃ ▸ hnodup
    rw [List.map_append, List.map_cons] at hnd
    have hcons : (a.id :: l₂.map Order.id).Nodup := hnd.of_append_right
    have hnotin : a.id ∉ l₂.map Order.id := (List.nodup_cons.1 hcons).1
    intro hxi
    exact hnotin (by rw [hai, ← hxi]; exact List.mem_map_of_mem _ hx₂)

/-- Erasing the entry for key `i` does not affect lookups of other
keys. -/
theorem findOrder_eraseP_other {l : List Order} {i : Nat} {o : Order}
    (hfind : findOrder l i = some o) (j : Nat) (hji : j ≠ i) :
    findOrder (l.eraseP (fun x => x.id == i)) j = findOrder l j := by
  have hmem : o ∈ l := findOrder_mem hfind
  have hpo : (o.id == i) = true := findOrder_id hfind
  obtain ⟨a, l₁, l₂, h₁, h₂, h₃, h₄⟩ := List.exists_of_eraseP (p := fun x => x.id == i) hmem hpo
  have hai : a.id = i := by simpa using h₂
  rw [h₄, h₃, findOrder_append, findOrder_append]
  have : findOrder (a :: l₂) j = findOrder l₂ j := by
    have : (a.id == j) = false := by
      simp [hai]
      exact fun h => hji h.symm
    simp [findOrder, List.find?_cons, this]
  rw [this]

/-! ## C3 — duplicate id rejected, book unchanged -/

/-- C3: submitting an order whose id is already live is rejected
(`add_order` returns `false`, the code's only duplicate-id signal) and
the manager is left completely unchanged — in particular the previously
stored order is still found under that id with its original price,
quantity and side, and no entry is added, removed or modified. -/
theorem add_order_duplicate_rejected (st : OrderManager) (o old : Order)
    (h : findOrder st.orders o.id = some old) :
    add_order st o = (false, st) ∧
    findOrder ((add_order st o).2).orders o.id = some old ∧
    sizeOf (add_order st o).2 = sizeOf st := by
  refine ⟨?_, ?_, ?_⟩ <;> simp [add_order, h, sizeOf]

/-- Witness for C3: a concrete duplicate submission is rejected and
leaves the stored order intact. -/
theorem add_order_duplicate_rejected_witness :
    add_order ⟨[⟨1, 100, 50, 0⟩], 1, 0⟩ ⟨1, 200, 10, 1⟩ =
      (false, ⟨[⟨1, 100, 50, 0⟩], 1, 0⟩) :=
  (add_order_duplicate_rejected ⟨[⟨1, 100, 50, 0⟩], 1, 0⟩ ⟨1, 200, 10, 1⟩
    ⟨1, 100, 50, 0⟩ (by decide)).1

/-! ## C5 — cancel semantics -/

/-- C5: cancelling an id that is not resting fails (`cancel_order`
returns `false`, the code's `NotFound` signal) and leaves the manager
unchanged; cancelling a resting id returns `true` and removes exactly
that one entry: the cancelled id no longer resolves, every other id
resolves exactly as before, and the active-order count drops by one.  No
partial mutation is possible: the state is either untouched or the full
erase. -/
theorem cancel_order_spec (st : OrderManager) (i : Nat)
    (hnodup : (st.orders.map Order.id).Nodup) :
    (findOrder st.orders i = none → cancel_order st i = (false, st)) ∧
    (∀ o, findOrder st.orders i = some o →
      (cancel_order st i).1 = true ∧
      ((cancel_order st i).2).orders =
        st.orders.eraseP (fun x => x.id == i) ∧
      findOrder ((cancel_order st i).2).orders i = none ∧
      (∀ j, j ≠ i →
        findOrder ((cancel_order st i).2).orders j = findOrder st.orders j) ∧
      sizeOf (cancel_order st i).2 + 1 = sizeOf st) := by
  constructor
  · intro h
    simp [cancel_order, h]
  · intro o h
    have hmem : o ∈ st.orders := findOrder_mem h
    have hpo : (o.id == i) = true := findOrder_id h
    refine ⟨?_, ?_, ?_, ?_, ?_⟩
    · simp [cancel_order, h]
    · simp [cancel_order, h]
    · simpa [cancel_order, h] using findOrder_eraseP_self hnodup h
    · intro j hji
      simpa [cancel_order, h] using findOrder_eraseP_other h j hji
    · have hlen := List.length_eraseP_of_mem (p := fun x => x.id == i) hmem hpo
      have hpos : 0 < st.orders.length := List.length_pos.2 (by
        intro hnil; rw [hnil] at hmem; exact (List.not_mem_nil o) hmem)
      simp [cancel_order, h, sizeOf, hlen]
      omega

/-- Witness for C5: concrete failed and successful cancels. -/
theorem cancel_order_spec_witness :
    cancel_order ⟨[⟨7, 5, 3, 0⟩], 1, 0⟩ 9 = (false, ⟨[⟨7, 5, 3, 0⟩], 1, 0⟩) ∧
    (cancel_order ⟨[⟨7, 5, 3, 0⟩], 1, 0⟩ 7).1 = true := by
  constructor
  · exact (cancel_order_spec ⟨[⟨7, 5, 3, 0⟩], 1, 0⟩ 9 (by decide)).1 (by decide)
  · exact ((cancel_order_spec ⟨[⟨7, 5, 3, 0⟩], 1, 0⟩ 7 (by decide)).2
      ⟨7, 5, 3, 0⟩ (by decide)).1

/-! ## C6 — submit/cancel round trip -/

/-- C6: from any book state, submitting an order whose id is not
currently live (with positive price and quantity) and then immediately
cancelling that id restores exactly the pre-submit set of resting orders
(hence the same price levels and aggregate quantities, which are
functions of that set). -/
theorem submit_cancel_roundtrip (st : OrderManager) (o : Order)
    (hfresh : findOrder st.orders o.id = none)
    (hq : 0 < o.quantity) (hp : 0 < o.price) :
    (cancel_order (add_order st o).2 o.id).1 = true ∧
    ((cancel_order (add_order st o).2 o.id).2).orders = st.orders := by
  have hnone : ∀ b ∈ st.orders, ¬ (b.id == o.id) = true := by
    rw [findOrder_eq_none_iff] at hfresh
    intro b hb
    simpa using hfresh b hb
  have hadd : (add_order st o).2 =
      { st with orders := st.orders ++ [o],
                total_orders_added := st.total_orders_added + 1 } := by
    simp [add_order, hfresh]
  have hfind : findOrder (st.orders ++ [o]) o.id = some o := by
    rw [findOrder_append]
    rw [hfresh]
    simp [findOrder]
  have herase : (st.orders ++ [o]).eraseP (fun x => x.id == o.id) =
      st.orders := by
    rw [List.eraseP_append_right _ hnone]
    simp [List.eraseP_cons]
  constructor <;> simp [cancel_order, hadd, hfind, herase]

/-- Witness for C6: a concrete submit-then-cancel round trip on a
one-order book. -/
theorem submit_cancel_roundtrip_witness :
    ((cancel_order (add_order ⟨[⟨5, 7, 2, 1⟩], 1, 0⟩ ⟨1, 100, 50, 0⟩).2 1).2).orders =
      [⟨5, 7, 2, 1⟩] :=
  (submit_cancel_roundtrip ⟨[⟨5, 7, 2, 1⟩], 1, 0⟩ ⟨1, 100, 50, 0⟩
    (by decide) (by decide) (by decide)).2

/-! ## C10 — counter consistency invariant -/

/-- The implicit invariant relating the order map and the statistics
counters. -/
def counterInv (st : OrderManager) : Prop :=
  sizeOf st + st.total_orders_cancelled = st.total_orders_added

theorem counterInv_apply (st : OrderManager) (op : BookOp)
    (h : counterInv st) : counterInv (applyOp st op) := by
  cases op with
  | addOp o =>
      unfold counterInv sizeOf at *
      cases hfind : findOrder st.orders o.id <;>
        simp [applyOp, add_order, hfind] <;> omega
  | cancelOp i =>
      unfold counterInv sizeOf at *
      cases hfind : findOrder st.orders i with
      | none => simpa [applyOp, cancel_order, hfind] using h
      | some o =>
          have hmem : o ∈ st.orders := findOrder_mem hfind
          have hpo : (o.id == i) = true := findOrder_id hfind
          have hlen := List.length_eraseP_of_mem (p := fun x => x.id == i) hmem hpo
          have hpos : 0 < st.orders.length := List.length_pos.2 (by
            intro hnil; rw [hnil] at hmem; exact (List.not_mem_nil o) hmem)
          simp [applyOp, cancel_order, hfind, hlen]
          omega
  | clearOp => simp [applyOp, clearAll, counterInv, sizeOf, mgr0]

theorem counterInv_foldl (ops : List BookOp) :
    ∀ st : OrderManager, counterInv st → counterInv (ops.foldl applyOp st) := by
  induction ops with
  | nil => intro st h; simpa using h
  | cons op ops ih =>
      intro st h
      exact ih (applyOp st op) (counterInv_apply st op h)

/-- C10: starting from a fresh `OrderManager`, after any sequence of
`add_order`, `cancel_order` and `clear` calls, the number of active
orders equals the total-orders-added counter minus the
total-orders-cancelled counter (and the cancelled counter never exceeds
the added counter). -/
theorem size_eq_added_sub_cancelled (ops : List BookOp) :
    sizeOf (runOps ops) =
      (runOps ops).total_orders_added - (runOps ops).total_orders_cancelled ∧
    (runOps ops).total_orders_cancelled ≤ (runOps ops).total_orders_added := by
  have h := counterInv_foldl ops mgr0 (by simp [counterInv, sizeOf, mgr0])
  unfold counterInv at h
  unfold runOps
  omega

/-! ## C1 — marketable pair scenario -/

/-- The C1 scenario: Buy id=1 price=100 qty=50, then Sell id=2 price=100
qty=30, submitted to an empty book. -/
def c1Run : List Fill × OrderManager :=
  runSubmits [⟨1, 100, 50, 0⟩, ⟨2, 100, 30, 1⟩] mgr0

/-- Counterexample to C1: the code performs no matching, so the scenario
does not emit the claimed Fill(resting=1, incoming=2, price=100, qty=30),
does not reduce order 1 to quantity 20, and leaves order 2 resting. -/
theorem c1_counterexample :
    ¬ (c1Run.1 = [⟨1, 2, 100, 30⟩] ∧
       findOrder c1Run.2.orders 1 = some ⟨1, 100, 20, 0⟩ ∧
       findOrder c1Run.2.orders 2 = none) := by
  decide

/-- C1 as amended: submitting the marketable pair Buy(1,100,50) then
Sell(2,100,30) to an empty book emits no Fill events — `add_order` does
no matching — and both orders simply rest with their full original
quantities. -/
theorem c1_no_matching :
    c1Run.1 = [] ∧
    findOrder c1Run.2.orders 1 = some ⟨1, 100, 50, 0⟩ ∧
    findOrder c1Run.2.orders 2 = some ⟨2, 100, 30, 1⟩ := by
  decide

/-! ## C2 — quantity conservation -/

theorem runSubmits_fills_nil (ops : List Order) :
    ∀ st : OrderManager, (runSubmits ops st).1 = [] := by
  induction ops with
  | nil => intro st; rfl
  | cons o os ih => intro st; simp [runSubmits, emittedFills, ih]

theorem runSubmits_sumResting (ops : List Order) :
    ∀ st : OrderManager,
      (∀ o ∈ ops, findOrder st.orders o.id = none) →
      (ops.map Order.id).Nodup →
      sumResting (runSubmits ops st).2 =
        sumResting st + (ops.map Order.quantity).sum := by
  induction ops with
  | nil => intro st _ _; simp [runSubmits]
  | cons o os ih =>
      intro st hfresh hnodup
      have ho : findOrder st.orders o.id = none := hfresh o (by simp)
      have hst' : (add_order st o).2 =
          { st with orders := st.orders ++ [o],
                    total_orders_added := st.total_orders_added + 1 } := by
        simp [add_order, ho]
      have hfresh' : ∀ o2 ∈ os,
          findOrder (st.orders ++ [o]) o2.id = none := by
        intro o2 ho2
        rw [findOrder_append]
        have h1 : findOrder st.orders o2.id = none := hfresh o2 (by simp [ho2])
        have h2 : o2.id ≠ o.id := by
          have hnc : (o.id :: os.map Order.id).Nodup := by
            rw [List.map_cons] at hnodup; exact hnodup
          have hni := (List.nodup_cons.1 hnc).1
          intro he
          exact hni (he ▸ List.mem_map_of_mem _ ho2)
        have h3 : findOrder [o] o2.id = none := by
          simp [findOrder]
          exact fun hc => h2 hc.symm
        rw [h1, h3]
        rfl
      have hnodup' : (os.map Order.id).Nodup := by
        have hnc : (o.id :: os.map Order.id).Nodup := by
          rw [List.map_cons] at hnodup; exact hnodup
        exact (List.nodup_cons.1 hnc).2
      have := ih (add_order st o).2 (by rw [hst']; exact hfresh') hnodup'
      rw [runSubmits]
      simp only at this ⊢
      rw [this, hst']
      simp [sumResting]
      omega

/-- C2: for every sequence of submissions with pairwise-distinct ids and
positive price and quantity, applied to an initially empty book, the sum
of the quantities still resting plus the sum of the quantities reported
by the emitted Fill events equals the sum of the submitted quantities
(the code emits no fills and rests every order in full, so both sides
equal the submitted total). -/
theorem quantity_conservation (ops : List Order)
    (hids : (ops.map Order.id).Nodup)
    (hpos : ∀ o ∈ ops, 0 < o.quantity ∧ 0 < o.price) :
    sumResting (runSubmits ops mgr0).2 + sumFillQty (runSubmits ops mgr0).1 =
      (ops.map Order.quantity).sum := by
  have hfills := runSubmits_fills_nil ops mgr0
  have hsum := runSubmits_sumResting ops mgr0
    (by intro o _; rfl) hids
  rw [hfills, hsum]
  simp [sumFillQty, sumResting, mgr0]

/-- Witness for C2: two distinct positive submissions conserve quantity
(50 + 30 both rest, no fills). -/
theorem quantity_conservation_witness :
    sumResting (runSubmits [⟨1, 100, 50, 0⟩, ⟨2, 101, 30, 1⟩] mgr0).2 +
      sumFillQty (runSubmits [⟨1, 100, 50, 0⟩, ⟨2, 101, 30, 1⟩] mgr0).1 = 80 := by
  have h := quantity_conservation [⟨1, 100, 50, 0⟩, ⟨2, 101, 30, 1⟩]
    (by decide) (by decide)
  simpa using h

/-! ## C4 — absence of price/quantity validation -/

/-- Counterexample to C4: an order with quantity 0 and price 0 (violating
both positivity preconditions) is not rejected — `add_order` accepts and
stores it. -/
theorem c4_counterexample :
    ¬ ((add_order mgr0 ⟨1, 0, 0, 0⟩).1 = false) ∧
    findOrder ((add_order mgr0 ⟨1, 0, 0, 0⟩).2).orders 1 = some ⟨1, 0, 0, 0⟩ := by
  decide

/-- C4 as amended: `add_order` performs no validation of price or
quantity whatsoever; a submission succeeds if and only if the id is not
already live, regardless of the sign of price or quantity. -/
theorem add_order_no_validation (st : OrderManager) (o : Order) :
    (add_order st o).1 = true ↔ findOrder st.orders o.id = none := by
  cases h : findOrder st.orders o.id <;> simp [add_order, h]

/-! ## C7 — CSV per-line fault tolerance -/

/-- Counterexample to C7: the line `1,100,10,0,extra` has five fields —
malformed under the claim's "wrong field count" — yet the loader submits
it successfully (the parser reads only the first four fields and ignores
the rest), so the count is 1 rather than 0 and order 1 rests. -/
theorem c7_counterexample :
    ¬ ((load_from_csv ["id,price,quantity,side", "1,100,10,0,extra"] mgr0).1 = 0 ∧
       findOrder ((load_from_csv ["id,price,quantity,side",
          "1,100,10,0,extra"] mgr0).2).orders 1 = none) := by
  decide

theorem processLine_added (st : OrderManager) (line : String) :
    (processLine st line).1 + st.total_orders_added =
      (processLine st line).2.total_orders_added := by
  unfold processLine
  cases hp : parse_csv_line line with
  | none => simp
  | some o =>
      simp only
      cases hf : findOrder st.orders o.id <;> simp [add_order, hf] <;> omega

theorem loadLines_added (lines : List String) :
    ∀ st : OrderManager,
      (loadLines lines st).1 + st.total_orders_added =
        (loadLines lines st).2.total_orders_added := by
  induction lines with
  | nil => intro st; simp [loadLines]
  | cons l ls ih =>
      intro st
      by_cases hl : l = ""
      · simpa [loadLines, hl] using ih st
      · have h₁ := processLine_added st l
        have h₂ := ih (processLine st l).2
        simp [loadLines, hl]
        omega

/-- C7 as amended: loading is total — every line is processed in turn and
a line that fails to parse (fewer than four fields, a field with no
numeric prefix, or a side value above 1) merely contributes nothing — and
the returned count equals the number of orders successfully submitted to
the book, i.e. exactly the growth of the added counter (which `add_order`
increments precisely on successful submission).  Lines with extra fields
or trailing garbage after a numeric prefix are, however, accepted, not
skipped. -/
theorem load_count_eq_submitted (lines : List String) (st : OrderManager) :
    (load_from_csv lines st).1 + st.total_orders_added =
      (load_from_csv lines st).2.total_orders_added := by
  cases lines with
  | nil =>
      have he : hasIdSub "" = false := by decide
      have hp : parse_csv_line "" = none := by decide
      simp [load_from_csv, he, processLine, hp, loadLines]
  | cons first rest =>
      cases h : hasIdSub first with
      | true => simpa [load_from_csv, h] using loadLines_added rest st
      | false =>
          have h₁ := processLine_added st first
          have h₂ := loadLines_added rest (processLine st first).2
          simp [load_from_csv, h]
          omega

/-! ## C8 — CSV header detection -/

/-- Counterexample to C8: the first line `123,45,6,0id` has a numeric id
field and parses as a valid order record (trailing characters after the
side's numeric prefix are ignored), so under the claim it would be
processed and loaded; but the code's substring heuristic
(`line.find("id") != npos`) treats it as a header and skips it, loading
nothing. -/
theorem c8_counterexample :
    parse_csv_line "123,45,6,0id" = some ⟨123, 45, 6, 0⟩ ∧
    load_from_csv ["123,45,6,0id"] mgr0 = (0, mgr0) ∧
    ¬ ((load_from_csv ["123,45,6,0id"] mgr0).1 = 1) := by
  decide

/-- C8 as amended: the first line is treated as a header and skipped if
and only if it contains `"id"` or `"ID"` as a substring anywhere;
otherwise it is processed as an order record like any other line.  (In
particular numeric-field detection plays no role.) -/
theorem header_detection (first : String) (rest : List String)
    (st : OrderManager) :
    load_from_csv (first :: rest) st =
      if hasIdSub first then loadLines rest st
      else
        ((processLine st first).1 + (loadLines rest (processLine st first).2).1,
          (loadLines rest (processLine st first).2).2) := by
  unfold load_from_csv
  cases h : hasIdSub first <;> simp [h]

/-! ## C9 — snapshot ordering and rendering -/

/-- A state with two buy orders at the same price, order 1 having arrived
before order 2. -/
def c9St : OrderManager := ⟨[⟨1, 100, 5, 0⟩, ⟨2, 100, 7, 0⟩], 2, 0⟩

/-- Counterexample to C9: the claim's arrival-order tie-break does not
hold.  The comparator treats equal-price same-side orders as equivalent,
the pointers come from an unordered hash map, and `std::sort` is not
stable, so the output listing order 2 before the earlier-arrived order 1
is a valid snapshot — the code does not guarantee the arrival order the
claim requires. -/
theorem c9_counterexample :
    ¬ (∀ out, validSnapshotOrders c9St out →
        out = [⟨1, 100, 5, 0⟩, ⟨2, 100, 7, 0⟩]) := by
  intro h
  have := h [⟨2, 100, 7, 0⟩, ⟨1, 100, 5, 0⟩] ⟨by decide, by decide⟩
  exact absurd this (by decide)

theorem cmpSnap_false_priority {a b : Order}
    (h : cmpSnap b a = false) : priorityOrdered a b := by
  unfold cmpSnap at h
  unfold priorityOrdered
  cases ha : a.is_buy <;> cases hb : b.is_buy <;>
    simp [ha, hb] at h ⊢
  · exact h
  · exact h

/-- C9 as amended: every possible snapshot listing contains exactly the
active orders, arranged with all buys before all sells, buys by
descending price, sells by ascending price — but equal-price same-side
orders may appear in any order (no arrival tie-break) — and each row is
rendered as right-justified fixed-width columns: id (width 12), price
with two decimals (width 12), quantity (width 12), and the side label
`BUY`/`SELL` (width 8). -/
theorem snapshot_sorted (st : OrderManager) (out : List Order)
    (h : validSnapshotOrders st out) :
    out.Perm st.orders ∧
    out.Pairwise priorityOrdered ∧
    ∀ o ∈ out, renderRow o =
      padTo 12 (toString o.id) ++ padTo 12 (fmt2 o.price) ++
        padTo 12 (toString o.quantity) ++
        padTo 8 (if o.is_buy then "BUY" else "SELL") := by
  refine ⟨h.1.symm, ?_, ?_⟩
  · exact h.2.imp (fun hab => cmpSnap_false_priority hab)
  · intro o _
    rfl

/-- Witness for C9's amended theorem: a concrete valid snapshot of the
two-order state is a permutation of the active orders and is priority
sorted. -/
theorem snapshot_sorted_witness :
    ([⟨2, 100, 7, 0⟩, ⟨1, 100, 5, 0⟩] : List Order).Pairwise priorityOrdered ∧
    ([⟨2, 100, 7, 0⟩, ⟨1, 100, 5, 0⟩] : List Order).Perm c9St.orders :=
  ⟨(snapshot_sorted c9St [⟨2, 100, 7, 0⟩, ⟨1, 100, 5, 0⟩]
      ⟨by decide, by decide⟩).2.1,
   (snapshot_sorted c9St [⟨2, 100, 7, 0⟩, ⟨1, 100, 5, 0⟩]
      ⟨by decide, by decide⟩).1⟩

end LimitOrderBook
